import Mathlib

/-!
Verification development for the ASL Vision Grader repository.

The repository's scoring engine (`src/backend/app/services/dtw.py`) contains
only placeholder comments, so the Sequence Aligner and the Score & Heatmap
Composer are modelled from the specification text (each such definition says
so in its doc comment).  The landmark-extraction scripts
(`src/scripts/process-real-wlasl-videos.py` and
`src/scripts/download-kaggle-wlasl.py`) are real code and are translated
directly.

Conventions: real numbers stand for Python floats, `ℤ` for Python ints,
`ℚ` for exact intermediate arithmetic that Python performs on floats
(`int(x)` on a nonnegative value becomes `Int.floor`).
-/

/-- Modelled from the spec (§3 Data model): a landmark is a 3-tuple of
normalized floating-point coordinates. -/
structure Landmark where
  x : ℝ
  y : ℝ
  z : ℝ

instance : Inhabited Landmark := ⟨⟨0, 0, 0⟩⟩

/-- Componentwise sum of two landmarks, used to express uniform translation. -/
def lmAdd (a v : Landmark) : Landmark := ⟨a.x + v.x, a.y + v.y, a.z + v.z⟩

/-- Componentwise difference of two landmarks (displacement vectors and
per-frame recentering). -/
def lmSub (a b : Landmark) : Landmark := ⟨a.x - b.x, a.y - b.y, a.z - b.z⟩

/-- Modelled from the spec (§3): a frame is an ordered collection of landmarks
for the tracked hand, a detection-confidence scalar and a millisecond
timestamp.  The spec's optional confidence weighting of the distance metric is
the default-off variant, so the confidence field is carried but not used by
the metric. -/
structure Frame where
  timestamp : ℤ
  landmarks : List Landmark
  confidence : ℝ

instance : Inhabited Frame := ⟨⟨0, [], 0⟩⟩

/-- Modelled from the spec (§3): an ordered sequence of frames with
sequence-level times in milliseconds. -/
structure LandmarkSequence where
  startTime : ℤ
  endTime : ℤ
  duration : ℤ
  frames : List Frame

/-- Modelled from the spec (§4.1): Euclidean distance between two landmarks'
(x, y, z) coordinates. -/
noncomputable def lmDist (a b : Landmark) : ℝ :=
  Real.sqrt ((a.x - b.x) ^ 2 + (a.y - b.y) ^ 2 + (a.z - b.z) ^ 2)

/-- Modelled from the spec (§4.1): per-frame distance, the per-landmark
Euclidean distances summed across all landmarks of the frame. -/
noncomputable def frameDist (f g : Frame) : ℝ :=
  ((f.landmarks.zip g.landmarks).map fun p => lmDist p.1 p.2).sum

/-- Euclidean magnitude of an offset vector. -/
noncomputable def offsetNorm (v : Landmark) : ℝ :=
  Real.sqrt (v.x ^ 2 + v.y ^ 2 + v.z ^ 2)

/-- Modelled from the spec (§6): the engine's configuration knobs used by the
claims — the three calibration scale constants and the recentering landmark
index (default 0, the wrist). -/
structure Config where
  shapeScale : ℝ
  locationScale : ℝ
  movementScale : ℝ
  recenterIdx : ℕ

/-- Modelled from the spec (§7): the error taxonomy of the engine. -/
inductive GradeError where
  | InvalidInput
  | EmptyAlignment
  | TopologyMismatch
deriving DecidableEq

/-- Modelled from the spec (§3): the aligner's output — the monotonic path of
(referenceFrameIndex, attemptFrameIndex) pairs and the total accumulated
cost. -/
structure AlignmentResult where
  path : List (ℕ × ℕ)
  totalCost : ℝ

/-- Modelled from the spec (§3): one heatmap record — a per-landmark scalar
divergence vector and the reference timestamp it corresponds to. -/
structure HeatmapRecord where
  timestamp : ℤ
  values : List ℝ

instance : Inhabited HeatmapRecord := ⟨⟨0, []⟩⟩

/-- Modelled from the spec (§3): three scalars in [0,1] and a heatmap. -/
structure ScoreBundle where
  shapeScore : ℝ
  locationScore : ℝ
  movementScore : ℝ
  heatmap : List HeatmapRecord

/-- Frame at a given index of a sequence (total, with a default frame). -/
def frameAt (s : LandmarkSequence) (i : ℕ) : Frame := s.frames.getD i default

/-- Landmark count of the first frame, the reference topology of a
sequence. -/
def headLandmarkCount (s : LandmarkSequence) : ℕ :=
  (s.frames.headD default).landmarks.length

/-- Modelled from the spec (§4.1): the landmark-topology check — per-frame
landmark counts must agree across both sequences. -/
def topologyOk (ref att : LandmarkSequence) : Bool :=
  (ref.frames ++ att.frames).all
    fun f => f.landmarks.length == headLandmarkCount ref

/-- The frame-distance matrix entry generator for a pair of sequences. -/
noncomputable def pairDist (ref att : LandmarkSequence) (i j : ℕ) : ℝ :=
  frameDist (frameAt ref i) (frameAt att j)

/-- Modelled from the spec (§4.1): the classic DTW cost matrix — cell (i, j)
is the frame distance at (i, j) plus the minimum of the three predecessor
cells, with cell (0, 0) the bare frame distance and the boundary cells
accumulating along the matrix edges. -/
noncomputable def dtwCost (d : ℕ → ℕ → ℝ) : ℕ → ℕ → ℝ
  | 0, 0 => d 0 0
  | 0, j + 1 => dtwCost d 0 j + d 0 (j + 1)
  | i + 1, 0 => dtwCost d i 0 + d (i + 1) 0
  | i + 1, j + 1 => d (i + 1) (j + 1) +
      min (dtwCost d i j) (min (dtwCost d i (j + 1)) (dtwCost d (i + 1) j))

open Classical in
/-- Modelled from the spec (§4.1): backtracking from (i, j) to (0, 0),
preferring the diagonal predecessor on equal costs; the returned list runs
from (0, 0) up to (i, j). -/
noncomputable def dtwPath (d : ℕ → ℕ → ℝ) : ℕ → ℕ → List (ℕ × ℕ)
  | 0, 0 => [(0, 0)]
  | 0, j + 1 => dtwPath d 0 j ++ [(0, j + 1)]
  | i + 1, 0 => dtwPath d i 0 ++ [(i + 1, 0)]
  | i + 1, j + 1 =>
      if dtwCost d i j ≤ dtwCost d i (j + 1) ∧ dtwCost d i j ≤ dtwCost d (i + 1) j then
        dtwPath d i j ++ [(i + 1, j + 1)]
      else if dtwCost d i (j + 1) ≤ dtwCost d (i + 1) j then
        dtwPath d i (j + 1) ++ [(i + 1, j + 1)]
      else
        dtwPath d (i + 1) j ++ [(i + 1, j + 1)]

/-- Modelled from the spec (§4.1): the Sequence Aligner — fails with
`InvalidInput` on an empty sequence or a landmark-topology mismatch,
otherwise returns the backtracked path and the total cost
cost(N-1, M-1). -/
noncomputable def alignSequences (ref att : LandmarkSequence) :
    Except GradeError AlignmentResult :=
  if ref.frames.isEmpty || att.frames.isEmpty then .error .InvalidInput
  else if !topologyOk ref att then .error .InvalidInput
  else
    .ok { path := dtwPath (pairDist ref att) (ref.frames.length - 1) (att.frames.length - 1),
          totalCost := dtwCost (pairDist ref att) (ref.frames.length - 1) (att.frames.length - 1) }

/-- Arithmetic mean of a list of reals (0 for the empty list). -/
noncomputable def meanList (l : List ℝ) : ℝ := l.sum / l.length

/-- Modelled from the spec (§4.2): the monotonic decreasing distance-to-score
mapping `1 / (1 + meanDistance / scaleConstant)`. -/
noncomputable def scoreMap (c m : ℝ) : ℝ := 1 / (1 + m / c)

/-- Modelled from the spec (§4.2): recenter a frame's landmarks on the
per-frame reference landmark of index `k`, removing absolute position. -/
def recenter (k : ℕ) (f : Frame) : Frame :=
  { f with landmarks := f.landmarks.map fun p => lmSub p (f.landmarks.getD k default) }

/-- Recentered (shape) distance of an aligned frame pair. -/
noncomputable def shapeDist (cfg : Config) (ref att : LandmarkSequence) (i j : ℕ) : ℝ :=
  frameDist (recenter cfg.recenterIdx (frameAt ref i)) (recenter cfg.recenterIdx (frameAt att j))

/-- Raw (location) distance of an aligned frame pair. -/
noncomputable def locDist (ref att : LandmarkSequence) (i j : ℕ) : ℝ :=
  frameDist (frameAt ref i) (frameAt att j)

/-- Modelled from the spec (§4.2): frame-to-frame landmark displacement
vectors within one sequence, by finite difference over consecutive original
frames. -/
def dispFrames (s : LandmarkSequence) : List Frame :=
  (s.frames.zip s.frames.tail).map fun fg =>
    { timestamp := fg.1.timestamp,
      landmarks := List.zipWith lmSub fg.2.landmarks fg.1.landmarks,
      confidence := fg.1.confidence }

/-- Modelled from the spec (§4.2): movement distances — compare the two
displacement sequences along the reused alignment path (pairs whose indices
have successors in both sequences). -/
noncomputable def movementDists (ref att : LandmarkSequence) (path : List (ℕ × ℕ)) : List ℝ :=
  path.filterMap fun p =>
    if p.1 + 1 < ref.frames.length ∧ p.2 + 1 < att.frames.length then
      some (frameDist ((dispFrames ref).getD p.1 default) ((dispFrames att).getD p.2 default))
    else none

/-- Modelled from the spec (§4.2): heatmap generation — one record per
reference frame, carrying the reference timestamp and, per landmark, the mean
distance over the attempt frames aligned to that reference frame. -/
noncomputable def mkHeatmap (ref att : LandmarkSequence)
    (path : List (ℕ × ℕ)) : List HeatmapRecord :=
  (List.range ref.frames.length).map fun i =>
    { timestamp := (frameAt ref i).timestamp,
      values := (List.range (headLandmarkCount ref)).map fun k =>
        meanList ((path.filterMap fun p => if p.1 = i then some p.2 else none).map
          fun j => lmDist ((frameAt ref i).landmarks.getD k default)
                          ((frameAt att j).landmarks.getD k default)) }

/-- Modelled from the spec (§4.2, §6, §7): the grading call — aligner then
composer, reusing one alignment for all three sub-scores and the heatmap,
failing wholly on any error. -/
noncomputable def gradeAttempt (cfg : Config) (ref att : LandmarkSequence) :
    Except GradeError ScoreBundle :=
  match alignSequences ref att with
  | .error e => .error e
  | .ok r =>
      if r.path.isEmpty then .error .EmptyAlignment
      else if headLandmarkCount ref ≤ cfg.recenterIdx then .error .TopologyMismatch
      else
        .ok { shapeScore := scoreMap cfg.shapeScale
                (meanList (r.path.map fun p => shapeDist cfg ref att p.1 p.2)),
              locationScore := scoreMap cfg.locationScale
                (meanList (r.path.map fun p => locDist ref att p.1 p.2)),
              movementScore := scoreMap cfg.movementScale
                (meanList (movementDists ref att r.path)),
              heatmap := mkHeatmap ref att r.path }

/-- The shape sub-score of a successful grading call (2, an out-of-range
sentinel, when the call fails). -/
noncomputable def shapeScoreVal (cfg : Config) (ref att : LandmarkSequence) : ℝ :=
  match gradeAttempt cfg ref att with
  | .ok b => b.shapeScore
  | .error _ => 2

/-- The location sub-score of a successful grading call (2 when the call
fails). -/
noncomputable def locationScoreVal (cfg : Config) (ref att : LandmarkSequence) : ℝ :=
  match gradeAttempt cfg ref att with
  | .ok b => b.locationScore
  | .error _ => 2

/-- The alignment path of a successful aligner call ([] when the call
fails). -/
noncomputable def pathOf (ref att : LandmarkSequence) : List (ℕ × ℕ) :=
  match alignSequences ref att with
  | .ok r => r.path
  | .error _ => []

/-- The movement sub-score of a successful grading call (2 when the call
fails). -/
noncomputable def movementScoreVal (cfg : Config) (ref att : LandmarkSequence) : ℝ :=
  match gradeAttempt cfg ref att with
  | .ok b => b.movementScore
  | .error _ => 2

/-- The heatmap record count of a successful grading call (0 when the call
fails). -/
noncomputable def heatmapLenVal (cfg : Config) (ref att : LandmarkSequence) : ℕ :=
  match gradeAttempt cfg ref att with
  | .ok b => b.heatmap.length
  | .error _ => 0

/-- The sequence obtained by uniformly translating every landmark of every
frame by a constant offset vector. -/
def translateSeq (v : Landmark) (s : LandmarkSequence) : LandmarkSequence :=
  { s with frames := s.frames.map fun f =>
      { f with landmarks := f.landmarks.map fun p => lmAdd p v } }

/-- The diagonal alignment path (0,0), (1,1), …, (n,n). -/
def diagPath (n : ℕ) : List (ℕ × ℕ) := (List.range (n + 1)).map fun k => (k, k)

/-- Input validity for a grading call: both sequences non-empty, landmark
topology uniform, and the recentering landmark present. -/
def validInput (cfg : Config) (ref att : LandmarkSequence) : Prop :=
  ref.frames.isEmpty = false ∧ att.frames.isEmpty = false ∧
    topologyOk ref att = true ∧ cfg.recenterIdx < headLandmarkCount ref

/-- One detected hand as reported by MediaPipe for a processed video frame:
its 21 landmark coordinates, the handedness classification label and the
classification score (the parallel `multi_hand_landmarks` /
`multi_handedness` entries, zipped). -/
structure Hand where
  landmarks : List Landmark
  label : String
  score : ℝ

instance : Inhabited Hand := ⟨⟨[], "Right", 0⟩⟩

/-- One decoded video frame: the list of hands MediaPipe detected in it
(empty when `multi_hand_landmarks` is falsy). -/
structure VideoFrame where
  hands : List Hand

/-- A decoded video as the extraction scripts see it: the ordered frames
`cap.read()` yields and the frame rate reported by
`cap.get(cv2.CAP_PROP_FPS)`; the reported frame count is the number of
frames actually read. -/
structure Video where
  frames : List VideoFrame
  fps : ℚ

/-- One serialized frame record as the scripts emit it: integer millisecond
timestamp, a list of per-hand landmark lists, a parallel handedness-label
list and a confidence scalar. -/
structure RawFrame where
  timestamp : ℤ
  landmarks : List (List Landmark)
  handedness : List String
  confidence : ℝ

/-- The serialized landmark-sequence object the scripts emit:
`startTime` / `endTime` / `duration` in integer milliseconds plus the frame
records. -/
structure LandmarksData where
  startTime : ℤ
  endTime : ℤ
  duration : ℤ
  frames : List RawFrame

/-- `process-real-wlasl-videos.py` line 207: per-frame timestamp
`int((frame_idx / fps) * 1000)`. -/
def realTs (fps : ℚ) (idx : ℕ) : ℤ := ⌊((idx : ℚ) / fps) * 1000⌋

/-- `download-kaggle-wlasl.py` line 156: per-frame timestamp
`int((frame_idx / fps) * 1000) if fps > 0 else frame_idx * 33`. -/
def kaggleTs (fps : ℚ) (idx : ℕ) : ℤ :=
  if 0 < fps then ⌊((idx : ℚ) / fps) * 1000⌋ else (idx : ℤ) * 33

/-- Millisecond duration `int((frame_count / fps) * 1000)` computed by both
scripts from the reported frame count and fps. -/
def durationMs (fps : ℚ) (count : ℕ) : ℤ := ⌊((count : ℚ) / fps) * 1000⌋

/-- The frame-processing while-loop shared by both extraction scripts
(lines 200–233 of `process-real-wlasl-videos.py`, lines 149–183 of
`download-kaggle-wlasl.py`): walk the video frames with a running
`frame_idx`, process every 3rd frame, and append a record only when at
least one hand was detected, taking the first hand. -/
def extractLoop (ts : ℕ → ℤ) : List VideoFrame → ℕ → List RawFrame
  | [], _ => []
  | f :: rest, idx =>
      if idx % 3 = 0 then
        match f.hands with
        | [] => extractLoop ts rest (idx + 1)
        | h :: _ =>
            { timestamp := ts idx,
              landmarks := [h.landmarks],
              handedness := [h.label],
              confidence := h.score } :: extractLoop ts rest (idx + 1)
      else extractLoop ts rest (idx + 1)

/-- `WLASLProcessor.extract_landmarks` (process-real-wlasl-videos.py lines
175–248): builds the landmarks object with `startTime = 0`,
`endTime = duration = int(duration * 1000)`, runs the frame loop, and
returns `None` when no frame produced landmarks.  The script divides by
`fps` unguarded, so its behaviour is only meaningful for `fps > 0`. -/
def extract_landmarks (v : Video) : Option LandmarksData :=
  let fs := extractLoop (realTs v.fps) v.frames 0
  if fs.isEmpty then none
  else some { startTime := 0,
              endTime := durationMs v.fps v.frames.length,
              duration := durationMs v.fps v.frames.length,
              frames := fs }

/-- `KaggleWLASLProcessor.extract_landmarks_from_video`
(download-kaggle-wlasl.py lines 124–198): as above but with
`duration = frame_count / fps if fps > 0 else 0` and the fps-guarded
timestamp. -/
def extract_landmarks_from_video (v : Video) : Option LandmarksData :=
  let fs := extractLoop (kaggleTs v.fps) v.frames 0
  if fs.isEmpty then none
  else some { startTime := 0,
              endTime := if 0 < v.fps then durationMs v.fps v.frames.length else 0,
              duration := if 0 < v.fps then durationMs v.fps v.frames.length else 0,
              frames := fs }

/-- One synthetic landmark of `KaggleWLASLProcessor.create_synthetic_landmarks`
(download-kaggle-wlasl.py lines 215–237): base grid position plus the
sign-specific motion term selected by the `'hello' in sign_name` /
`'thank'` / `'yes'` elif-chain. -/
noncomputable def synthLandmark (sign_name : String) (i j : ℕ) : Landmark :=
  let bx : ℝ := 0.5 + (j % 5 : ℕ) * 0.04 - 0.08
  let bys : ℝ := 0.4 + (j / 5 : ℕ) * 0.05
  if sign_name.containsSubstr "hello" then
    ⟨bx + 0.1 * Real.sin (2 * Real.pi * i / 50), bys, 0⟩
  else if sign_name.containsSubstr "thank" then
    ⟨bx, bys, 0 - 0.05 * ((i : ℝ) / 50)⟩
  else if sign_name.containsSubstr "yes" then
    ⟨bx, bys + 0.02 * Real.sin (4 * Real.pi * i / 50), 0⟩
  else ⟨bx, bys, 0⟩

/-- `KaggleWLASLProcessor.create_synthetic_landmarks`
(download-kaggle-wlasl.py lines 200–254): 50 frames over a 2000 ms duration,
each with 21 synthetic landmarks for one right hand at confidence 0.95 and
timestamp `int((i / frame_count) * duration)`. -/
noncomputable def create_synthetic_landmarks (sign_name : String) : LandmarksData :=
  { startTime := 0,
    endTime := 2000,
    duration := 2000,
    frames := (List.range 50).map fun (i : ℕ) =>
      { timestamp := ⌊((i : ℚ) / 50) * 2000⌋,
        landmarks := [(List.range 21).map fun j => synthLandmark sign_name i j],
        handedness := ["Right"],
        confidence := 0.95 } }

/-- The timestamps of a serialized landmark sequence, in emission order. -/
def tsList (d : LandmarksData) : List ℤ := d.frames.map RawFrame.timestamp

/-- The spec's LandmarkSequence invariant (§3): frames sorted by
non-decreasing timestamp and duration at least the last frame's
timestamp. -/
def seqInvariant (d : LandmarksData) : Prop :=
  List.Chain' (· ≤ ·) (tsList d) ∧ ∀ t ∈ (tsList d).getLast?, t ≤ d.duration

/-- Modelled from the spec (§6 persisted representation): the checkable
residue of the serialized shape in this typed embedding — every frame's
per-hand landmark lists are parallel to its handedness labels (the integer
times, 3-float landmarks and confidence scalar are enforced by the field
types). -/
def conformsPersistedShape (d : LandmarksData) : Prop :=
  ∀ f ∈ d.frames, f.landmarks.length = f.handedness.length

/-- The per-frame emission rule of the extraction loop, as a single step on
an index-tagged video frame: emit a record exactly for sampled frames with
at least one detected hand, built from the first hand. -/
def sampleRecord (ts : ℕ → ℤ) (p : ℕ × VideoFrame) : Option RawFrame :=
  if p.1 % 3 = 0 then
    match p.2.hands with
    | [] => none
    | h :: _ => some { timestamp := ts p.1,
                       landmarks := [h.landmarks],
                       handedness := [h.label],
                       confidence := h.score }
  else none

/-- A one-landmark, one-frame sequence used to witness engine claims. -/
def seqW : LandmarkSequence :=
  { startTime := 0, endTime := 0, duration := 0,
    frames := [{ timestamp := 0, landmarks := [⟨0, 0, 0⟩], confidence := 1 }] }

/-- A two-frame, one-landmark sequence used to witness engine claims. -/
def seqW2 : LandmarkSequence :=
  { startTime := 0, endTime := 100, duration := 100,
    frames := [{ timestamp := 0, landmarks := [⟨0, 0, 0⟩], confidence := 1 },
               { timestamp := 100, landmarks := [⟨1, 0, 0⟩], confidence := 1 }] }

/-- The unit configuration: all scale constants 1, recentering on landmark
0. -/
def cfg1 : Config := ⟨1, 1, 1, 0⟩

/-- An empty landmark sequence (zero frames). -/
def seqEmpty : LandmarkSequence := ⟨0, 0, 0, []⟩

/-- Reference sequence of the shape-score counterexample: three 2-landmark
frames whose spreads are 1, 9 and 17, positioned so that DTW against the
translate by (10,0,0) warps off the diagonal. -/
def ceA : LandmarkSequence :=
  { startTime := 0, endTime := 2, duration := 2,
    frames := [{ timestamp := 0, landmarks := [⟨0, 0, 0⟩, ⟨1, 0, 0⟩], confidence := 1 },
               { timestamp := 1, landmarks := [⟨-10, 0, 0⟩, ⟨-1, 0, 0⟩], confidence := 1 },
               { timestamp := 2, landmarks := [⟨-20, 0, 0⟩, ⟨-3, 0, 0⟩], confidence := 1 }] }

/-- `ceA` translated by (10,0,0), written out. -/
def ceB : LandmarkSequence :=
  { startTime := 0, endTime := 2, duration := 2,
    frames := [{ timestamp := 0, landmarks := [⟨10, 0, 0⟩, ⟨11, 0, 0⟩], confidence := 1 },
               { timestamp := 1, landmarks := [⟨0, 0, 0⟩, ⟨9, 0, 0⟩], confidence := 1 },
               { timestamp := 2, landmarks := [⟨-10, 0, 0⟩, ⟨7, 0, 0⟩], confidence := 1 }] }

/-- The offset vector of the shape-score counterexample. -/
def ceV : Landmark := ⟨10, 0, 0⟩

/-- Offset (3,4,0) of magnitude 5, for translation witnesses. -/
def offV : Landmark := ⟨3, 4, 0⟩

/-- Offset (6,8,0) of magnitude 10, for translation witnesses. -/
def offW : Landmark := ⟨6, 8, 0⟩

/-- A hand detection with a single landmark at the origin. -/
def handW : Hand := ⟨[⟨0, 0, 0⟩], "Right", 1⟩

/-- Witness video: 30 fps, four frames, hand detected in every frame. -/
def wvidA : Video := ⟨[⟨[handW]⟩, ⟨[handW]⟩, ⟨[handW]⟩, ⟨[handW]⟩], 30⟩

/-- Witness video with gaps: 30 fps, hand detected only in the first two
frames, the sampled index 3 undetected. -/
def wvidB : Video := ⟨[⟨[handW]⟩, ⟨[handW]⟩, ⟨[]⟩, ⟨[]⟩], 30⟩

/-- The serialized output of both extraction scripts on `wvidA`. -/
def wdataA : LandmarksData :=
  { startTime := 0, endTime := 133, duration := 133,
    frames := [{ timestamp := 0, landmarks := [[⟨0, 0, 0⟩]],
                 handedness := ["Right"], confidence := 1 },
               { timestamp := 100, landmarks := [[⟨0, 0, 0⟩]],
                 handedness := ["Right"], confidence := 1 }] }

/-- The serialized output of both extraction scripts on `wvidB`. -/
def wdataB : LandmarksData :=
  { startTime := 0, endTime := 133, duration := 133,
    frames := [{ timestamp := 0, landmarks := [[⟨0, 0, 0⟩]],
                 handedness := ["Right"], confidence := 1 }] }

/-- Counterexample video for the sequence invariant: the Kaggle script on a
video whose reported fps is 0 (as cv2 reports for some streams). -/
def kvid0 : Video := ⟨[⟨[handW]⟩, ⟨[handW]⟩, ⟨[handW]⟩, ⟨[handW]⟩], 0⟩

/-- What the Kaggle script emits on `kvid0`: timestamps 0 and 99 from the
`frame_idx * 33` fallback, but duration 0. -/
def kdata0 : LandmarksData :=
  { startTime := 0, endTime := 0, duration := 0,
    frames := [{ timestamp := 0, landmarks := [[⟨0, 0, 0⟩]],
                 handedness := ["Right"], confidence := 1 },
               { timestamp := 99, landmarks := [[⟨0, 0, 0⟩]],
                 handedness := ["Right"], confidence := 1 }] }

/-- The backtracked path the aligner returns on valid input. -/
noncomputable def rawPath (ref att : LandmarkSequence) : List (ℕ × ℕ) :=
  dtwPath (pairDist ref att) (ref.frames.length - 1) (att.frames.length - 1)

/-- The total cost the aligner returns on valid input. -/
noncomputable def rawCost (ref att : LandmarkSequence) : ℝ :=
  dtwCost (pairDist ref att) (ref.frames.length - 1) (att.frames.length - 1)

/-- One alignment-path step is monotonic non-decreasing in both indices. -/
def monoStep (p q : ℕ × ℕ) : Prop := p.1 ≤ q.1 ∧ p.2 ≤ q.2

theorem lmDist_nonneg (a b : Landmark) : 0 ≤ lmDist a b := Real.sqrt_nonneg _

theorem lmDist_self (a : Landmark) : lmDist a a = 0 := by
  simp [lmDist]

theorem zipSelf_dist_sum (l : List Landmark) :
    ((l.zip l).map fun p => lmDist p.1 p.2).sum = 0 := by
  induction l with
  | nil => simp
  | cons a t ih => simp [ih, lmDist_self]

theorem frameDist_self (f : Frame) : frameDist f f = 0 := by
  simp [frameDist, zipSelf_dist_sum]

theorem frameDist_nonneg (f g : Frame) : 0 ≤ frameDist f g := by
  apply List.sum_nonneg
  intro x hx
  obtain ⟨p, _, rfl⟩ := List.mem_map.mp hx
  exact lmDist_nonneg _ _

theorem pairDist_nonneg (ref att : LandmarkSequence) (i j : ℕ) :
    0 ≤ pairDist ref att i j := frameDist_nonneg _ _

theorem dtwCost_zero_zero (d : ℕ → ℕ → ℝ) : dtwCost d 0 0 = d 0 0 := by
  simp [dtwCost]

theorem dtwCost_zero_succ (d : ℕ → ℕ → ℝ) (j : ℕ) :
    dtwCost d 0 (j + 1) = dtwCost d 0 j + d 0 (j + 1) := by
  simp [dtwCost]

theorem dtwCost_succ_zero (d : ℕ → ℕ → ℝ) (i : ℕ) :
    dtwCost d (i + 1) 0 = dtwCost d i 0 + d (i + 1) 0 := by
  simp [dtwCost]

theorem dtwCost_succ_succ (d : ℕ → ℕ → ℝ) (i j : ℕ) :
    dtwCost d (i + 1) (j + 1) = d (i + 1) (j + 1) +
      min (dtwCost d i j) (min (dtwCost d i (j + 1)) (dtwCost d (i + 1) j)) := by
  simp [dtwCost]

/-- C1: the Sequence Aligner computes alignment by the classic DTW
recurrence — cell (i, j) is frameDistance(ref[i], attempt[j]) plus the
minimum of cells (i-1, j), (i, j-1) and (i-1, j-1), cell (0, 0) is
frameDistance(ref[0], attempt[0]), boundary cells accumulate along the
matrix edges, and the returned total cost is cost(N-1, M-1). -/
theorem C1_dtw_recurrence (ref att : LandmarkSequence) (r : AlignmentResult)
    (h : alignSequences ref att = .ok r) :
    r.totalCost = dtwCost (pairDist ref att)
        (ref.frames.length - 1) (att.frames.length - 1) ∧
    dtwCost (pairDist ref att) 0 0 = pairDist ref att 0 0 ∧
    (∀ j, dtwCost (pairDist ref att) 0 (j + 1) =
        dtwCost (pairDist ref att) 0 j + pairDist ref att 0 (j + 1)) ∧
    (∀ i, dtwCost (pairDist ref att) (i + 1) 0 =
        dtwCost (pairDist ref att) i 0 + pairDist ref att (i + 1) 0) ∧
    (∀ i j, dtwCost (pairDist ref att) (i + 1) (j + 1) =
        pairDist ref att (i + 1) (j + 1) +
          min (min (dtwCost (pairDist ref att) (i + 1) j)
                   (dtwCost (pairDist ref att) i (j + 1)))
              (dtwCost (pairDist ref att) i j)) := by
  refine ⟨?_, dtwCost_zero_zero _, dtwCost_zero_succ _, dtwCost_succ_zero _, ?_⟩
  · unfold alignSequences at h
    by_cases h1 : (ref.frames.isEmpty || att.frames.isEmpty) = true
    · rw [if_pos h1] at h; cases h
    · rw [if_neg h1] at h
      by_cases h2 : (!topologyOk ref att) = true
      · rw [if_pos h2] at h; cases h
      · rw [if_neg h2] at h
        injection h with h3
        rw [← h3]
  · intro i j
    rw [dtwCost_succ_succ]
    congr 1
    simp [min_comm, min_left_comm, min_assoc]

theorem topologyOk_seqW : topologyOk seqW seqW = true := by
  simp [topologyOk, seqW, headLandmarkCount]

theorem align_seqW : alignSequences seqW seqW = .ok ⟨[(0, 0)], 0⟩ := by
  unfold alignSequences
  rw [if_neg (by simp [seqW]), if_neg (by simp [topologyOk_seqW])]
  have hp : dtwPath (pairDist seqW seqW) (seqW.frames.length - 1)
      (seqW.frames.length - 1) = [(0, 0)] := by
    simp [seqW, dtwPath]
  have hc : dtwCost (pairDist seqW seqW) (seqW.frames.length - 1)
      (seqW.frames.length - 1) = 0 := by
    show dtwCost (pairDist seqW seqW) 0 0 = 0
    rw [dtwCost_zero_zero]
    exact frameDist_self _
  rw [hp, hc]

theorem C1_witness :
    AlignmentResult.totalCost ⟨[(0, 0)], 0⟩ =
      dtwCost (pairDist seqW seqW) (seqW.frames.length - 1) (seqW.frames.length - 1) ∧
    dtwCost (pairDist seqW seqW) 0 0 = pairDist seqW seqW 0 0 := by
  have main := C1_dtw_recurrence seqW seqW ⟨[(0, 0)], 0⟩ align_seqW
  exact ⟨main.1, main.2.1⟩

theorem step_append {R : ℕ × ℕ → ℕ × ℕ → Prop} {l : List (ℕ × ℕ)} {p q : ℕ × ℕ}
    (h0 : l.head? = some (0, 0)) (hl : l.getLast? = some p)
    (hc : List.Chain' R l) (hR : R p q) :
    (l ++ [q]).head? = some (0, 0) ∧ (l ++ [q]).getLast? = some q ∧
      List.Chain' R (l ++ [q]) ∧ (l ++ [q]).length = l.length + 1 := by
  refine ⟨?_, List.getLast?_concat l, ?_, by simp⟩
  · rw [List.head?_append, h0]; rfl
  · rw [List.chain'_append]
    refine ⟨hc, List.chain'_singleton q, ?_⟩
    intro x hx y hy
    rw [hl] at hx
    simp only [Option.mem_def, Option.some.injEq] at hx
    simp only [List.head?_cons, Option.mem_def, Option.some.injEq] at hy
    rw [← hx, ← hy]
    exact hR

theorem dtwPath_props (d : ℕ → ℕ → ℝ) :
    ∀ s i j, i + j ≤ s →
      (dtwPath d i j).head? = some (0, 0) ∧
      (dtwPath d i j).getLast? = some (i, j) ∧
      List.Chain' monoStep (dtwPath d i j) ∧
      max i j + 1 ≤ (dtwPath d i j).length ∧ (dtwPath d i j).length ≤ i + j + 1 := by
  intro s
  induction s with
  | zero =>
    intro i j hij
    have hi : i = 0 := by omega
    have hj : j = 0 := by omega
    subst hi; subst hj
    simp [dtwPath]
  | succ n ih =>
    intro i j hij
    match i, j with
    | 0, 0 => simp [dtwPath]
    | 0, j + 1 =>
      obtain ⟨h0, hl, hc, hlb, hub⟩ := ih 0 j (by omega)
      have heq : dtwPath d 0 (j + 1) = dtwPath d 0 j ++ [(0, j + 1)] := by
        simp [dtwPath]
      obtain ⟨a1, a2, a3, a4⟩ := step_append h0 hl hc
        (show monoStep (0, j) (0, j + 1) from ⟨le_refl _, by omega⟩)
      rw [heq]
      exact ⟨a1, a2, a3, by rw [a4]; omega, by rw [a4]; omega⟩
    | i + 1, 0 =>
      obtain ⟨h0, hl, hc, hlb, hub⟩ := ih i 0 (by omega)
      have heq : dtwPath d (i + 1) 0 = dtwPath d i 0 ++ [(i + 1, 0)] := by
        simp [dtwPath]
      obtain ⟨a1, a2, a3, a4⟩ := step_append h0 hl hc
        (show monoStep (i, 0) (i + 1, 0) from ⟨by omega, le_refl _⟩)
      rw [heq]
      exact ⟨a1, a2, a3, by rw [a4]; omega, by rw [a4]; omega⟩
    | i + 1, j + 1 =>
      by_cases hA : dtwCost d i j ≤ dtwCost d i (j + 1) ∧ dtwCost d i j ≤ dtwCost d (i + 1) j
      · obtain ⟨h0, hl, hc, hlb, hub⟩ := ih i j (by omega)
        have heq : dtwPath d (i + 1) (j + 1) = dtwPath d i j ++ [(i + 1, j + 1)] := by
          simp only [dtwPath]
          rw [if_pos hA]
        obtain ⟨a1, a2, a3, a4⟩ := step_append h0 hl hc
          (show monoStep (i, j) (i + 1, j + 1) from ⟨by omega, by omega⟩)
        rw [heq]
        exact ⟨a1, a2, a3, by rw [a4]; omega, by rw [a4]; omega⟩
      · by_cases hB : dtwCost d i (j + 1) ≤ dtwCost d (i + 1) j
        · obtain ⟨h0, hl, hc, hlb, hub⟩ := ih i (j + 1) (by omega)
          have heq : dtwPath d (i + 1) (j + 1) = dtwPath d i (j + 1) ++ [(i + 1, j + 1)] := by
            simp only [dtwPath]
            rw [if_neg hA, if_pos hB]
          obtain ⟨a1, a2, a3, a4⟩ := step_append h0 hl hc
            (show monoStep (i, j + 1) (i + 1, j + 1) from ⟨by omega, le_refl _⟩)
          rw [heq]
          exact ⟨a1, a2, a3, by rw [a4]; omega, by rw [a4]; omega⟩
        · obtain ⟨h0, hl, hc, hlb, hub⟩ := ih (i + 1) j (by omega)
          have heq : dtwPath d (i + 1) (j + 1) = dtwPath d (i + 1) j ++ [(i + 1, j + 1)] := by
            simp only [dtwPath]
            rw [if_neg hA, if_neg hB]
          obtain ⟨a1, a2, a3, a4⟩ := step_append h0 hl hc
            (show monoStep (i + 1, j) (i + 1, j + 1) from ⟨le_refl _, by omega⟩)
          rw [heq]
          exact ⟨a1, a2, a3, by rw [a4]; omega, by rw [a4]; omega⟩

theorem dtwPath_ne_nil (d : ℕ → ℕ → ℝ) (i j : ℕ) : dtwPath d i j ≠ [] := by
  intro hnil
  have h := (dtwPath_props d (i + j) i j (le_refl _)).1
  rw [hnil] at h
  cases h

theorem align_ok_elim {ref att : LandmarkSequence} {r : AlignmentResult}
    (h : alignSequences ref att = .ok r) :
    ref.frames ≠ [] ∧ att.frames ≠ [] ∧ topologyOk ref att = true ∧
      r = ⟨dtwPath (pairDist ref att) (ref.frames.length - 1) (att.frames.length - 1),
           dtwCost (pairDist ref att) (ref.frames.length - 1) (att.frames.length - 1)⟩ := by
  unfold alignSequences at h
  by_cases h1 : (ref.frames.isEmpty || att.frames.isEmpty) = true
  · rw [if_pos h1] at h; cases h
  · rw [if_neg h1] at h
    by_cases h2 : (!topologyOk ref att) = true
    · rw [if_pos h2] at h; cases h
    · rw [if_neg h2] at h
      injection h with h3
      simp only [Bool.or_eq_true, not_or, Bool.not_eq_true, List.isEmpty_eq_false] at h1
      simp only [Bool.not_eq_true', Bool.not_eq_false] at h2
      exact ⟨h1.1, h1.2, h2, h3.symm⟩

/-- C2: for every pair of non-empty input sequences of lengths N and M, the
alignment path returned by the aligner is monotonic non-decreasing in both
indices, starts at (0,0), ends at (N-1,M-1), and has length between
max(N,M) and N+M-1. -/
theorem C2_path_monotone (ref att : LandmarkSequence) (r : AlignmentResult)
    (h : alignSequences ref att = .ok r) :
    r.path.head? = some (0, 0) ∧
    r.path.getLast? = some (ref.frames.length - 1, att.frames.length - 1) ∧
    List.Chain' monoStep r.path ∧
    max ref.frames.length att.frames.length ≤ r.path.length ∧
    r.path.length ≤ ref.frames.length + att.frames.length - 1 := by
  obtain ⟨hr, ha, _, rfl⟩ := align_ok_elim h
  have hrl : 1 ≤ ref.frames.length := List.length_pos.mpr hr
  have hal : 1 ≤ att.frames.length := List.length_pos.mpr ha
  obtain ⟨p1, p2, p3, p4, p5⟩ := dtwPath_props (pairDist ref att)
    ((ref.frames.length - 1) + (att.frames.length - 1))
    (ref.frames.length - 1) (att.frames.length - 1) (le_refl _)
  refine ⟨p1, p2, p3, ?_, ?_⟩ <;> dsimp only <;> omega

theorem C2_witness :
    (AlignmentResult.path ⟨[(0, 0)], 0⟩).head? = some (0, 0) ∧
    (AlignmentResult.path ⟨[(0, 0)], 0⟩).getLast? =
      some (seqW.frames.length - 1, seqW.frames.length - 1) ∧
    List.Chain' monoStep (AlignmentResult.path ⟨[(0, 0)], 0⟩) ∧
    max seqW.frames.length seqW.frames.length ≤ (AlignmentResult.path ⟨[(0, 0)], 0⟩).length ∧
    (AlignmentResult.path ⟨[(0, 0)], 0⟩).length ≤
      seqW.frames.length + seqW.frames.length - 1 :=
  C2_path_monotone seqW seqW ⟨[(0, 0)], 0⟩ align_seqW

theorem dtwCost_nonneg (d : ℕ → ℕ → ℝ) (hpos : ∀ i j, 0 ≤ d i j) :
    ∀ i j, 0 ≤ dtwCost d i j := by
  have key : ∀ s i j, i + j ≤ s → 0 ≤ dtwCost d i j := by
    intro s
    induction s with
    | zero =>
      intro i j hij
      have hi : i = 0 := by omega
      have hj : j = 0 := by omega
      subst hi; subst hj
      rw [dtwCost_zero_zero]
      exact hpos 0 0
    | succ n ih =>
      intro i j hij
      match i, j with
      | 0, 0 => rw [dtwCost_zero_zero]; exact hpos 0 0
      | 0, j + 1 =>
        rw [dtwCost_zero_succ]
        exact add_nonneg (ih 0 j (by omega)) (hpos _ _)
      | i + 1, 0 =>
        rw [dtwCost_succ_zero]
        exact add_nonneg (ih i 0 (by omega)) (hpos _ _)
      | i + 1, j + 1 =>
        rw [dtwCost_succ_succ]
        refine add_nonneg (hpos _ _) ?_
        exact le_min (ih i j (by omega))
          (le_min (ih i (j + 1) (by omega)) (ih (i + 1) j (by omega)))
  intro i j
  exact key (i + j) i j (le_refl _)

theorem dtwCost_diag_zero (d : ℕ → ℕ → ℝ) (hpos : ∀ i j, 0 ≤ d i j)
    (hdiag : ∀ i, d i i = 0) : ∀ n, dtwCost d n n = 0 := by
  intro n
  induction n with
  | zero => rw [dtwCost_zero_zero]; exact hdiag 0
  | succ n ih =>
    rw [dtwCost_succ_succ, hdiag, ih]
    rw [min_eq_left (le_min (dtwCost_nonneg d hpos _ _) (dtwCost_nonneg d hpos _ _))]
    rw [zero_add]

theorem dtwPath_diag (d : ℕ → ℕ → ℝ) (hpos : ∀ i j, 0 ≤ d i j)
    (hdiag : ∀ i, d i i = 0) : ∀ n, dtwPath d n n = diagPath n := by
  intro n
  induction n with
  | zero =>
    have h : dtwPath d 0 0 = [(0, 0)] := by simp [dtwPath]
    rw [h]; rfl
  | succ n ih =>
    have hA : dtwCost d n n ≤ dtwCost d n (n + 1) ∧ dtwCost d n n ≤ dtwCost d (n + 1) n := by
      refine ⟨?_, ?_⟩ <;> rw [dtwCost_diag_zero d hpos hdiag] <;>
        exact dtwCost_nonneg d hpos _ _
    simp only [dtwPath]
    rw [if_pos hA, ih]
    simp [diagPath, List.range_succ]

theorem meanList_zero {l : List ℝ} (h : ∀ x ∈ l, x = 0) : meanList l = 0 := by
  unfold meanList
  rw [List.sum_eq_zero h]
  exact zero_div _

theorem scoreMap_zero (c : ℝ) : scoreMap c 0 = 1 := by
  unfold scoreMap
  rw [zero_div]
  norm_num

theorem align_eq_ok {ref att : LandmarkSequence}
    (h1 : ref.frames.isEmpty = false) (h2 : att.frames.isEmpty = false)
    (h3 : topologyOk ref att = true) :
    alignSequences ref att = .ok ⟨rawPath ref att, rawCost ref att⟩ := by
  unfold alignSequences
  rw [if_neg (by simp [h1, h2]), if_neg (by simp [h3])]
  rfl

theorem rawPath_isEmpty_false (ref att : LandmarkSequence) :
    (rawPath ref att).isEmpty = false := by
  rw [List.isEmpty_eq_false]
  exact dtwPath_ne_nil _ _ _

theorem gradeAttempt_eq_ok (cfg : Config) (ref att : LandmarkSequence)
    (hv : validInput cfg ref att) :
    gradeAttempt cfg ref att = .ok
      { shapeScore := scoreMap cfg.shapeScale
          (meanList ((rawPath ref att).map fun p => shapeDist cfg ref att p.1 p.2)),
        locationScore := scoreMap cfg.locationScale
          (meanList ((rawPath ref att).map fun p => locDist ref att p.1 p.2)),
        movementScore := scoreMap cfg.movementScale
          (meanList (movementDists ref att (rawPath ref att))),
        heatmap := mkHeatmap ref att (rawPath ref att) } := by
  obtain ⟨h1, h2, h3, h4⟩ := hv
  unfold gradeAttempt
  rw [align_eq_ok h1 h2 h3]
  simp only [rawPath_isEmpty_false, Bool.false_eq_true, if_false]
  rw [if_neg (by omega)]

/-- C3: grading a non-empty sequence against an identical copy of itself
yields total alignment cost 0 and shapeScore, locationScore and
movementScore all equal to 1. -/
theorem C3_identity (cfg : Config) (S : LandmarkSequence) (hv : validInput cfg S S) :
    ∃ b, gradeAttempt cfg S S = .ok b ∧
      b.shapeScore = 1 ∧ b.locationScore = 1 ∧ b.movementScore = 1 ∧
      ∃ r, alignSequences S S = .ok r ∧ r.totalCost = 0 := by
  have hdiag : ∀ i, pairDist S S i i = 0 := fun i => frameDist_self _
  have hpos : ∀ i j, 0 ≤ pairDist S S i j := pairDist_nonneg S S
  have hpath : rawPath S S = diagPath (S.frames.length - 1) :=
    dtwPath_diag _ hpos hdiag _
  have hshape : ∀ x ∈ (diagPath (S.frames.length - 1)).map
      (fun p => shapeDist cfg S S p.1 p.2), x = 0 := by
    intro x hx
    obtain ⟨p, hp, rfl⟩ := List.mem_map.mp hx
    obtain ⟨k, _, rfl⟩ := List.mem_map.mp hp
    exact frameDist_self _
  have hloc : ∀ x ∈ (diagPath (S.frames.length - 1)).map
      (fun p => locDist S S p.1 p.2), x = 0 := by
    intro x hx
    obtain ⟨p, hp, rfl⟩ := List.mem_map.mp hx
    obtain ⟨k, _, rfl⟩ := List.mem_map.mp hp
    exact frameDist_self _
  have hmov : ∀ x ∈ movementDists S S (diagPath (S.frames.length - 1)), x = 0 := by
    intro x hx
    unfold movementDists at hx
    obtain ⟨p, hp, hsome⟩ := List.mem_filterMap.mp hx
    obtain ⟨k, _, rfl⟩ := List.mem_map.mp hp
    by_cases hcond : k + 1 < S.frames.length ∧ k + 1 < S.frames.length
    · rw [if_pos hcond] at hsome
      injection hsome with h
      rw [← h]
      exact frameDist_self _
    · rw [if_neg hcond] at hsome
      cases hsome
  refine ⟨_, gradeAttempt_eq_ok cfg S S hv, ?_, ?_, ?_, ?_⟩
  · simp only [hpath]
    rw [meanList_zero hshape, scoreMap_zero]
  · simp only [hpath]
    rw [meanList_zero hloc, scoreMap_zero]
  · simp only [hpath]
    rw [meanList_zero hmov, scoreMap_zero]
  · obtain ⟨h1, h2, h3, _⟩ := hv
    refine ⟨_, align_eq_ok h1 h2 h3, ?_⟩
    exact dtwCost_diag_zero _ hpos hdiag _

theorem validInput_seqW : validInput cfg1 seqW seqW := by
  refine ⟨by simp [seqW], by simp [seqW], topologyOk_seqW, ?_⟩
  simp [seqW, headLandmarkCount, cfg1]

theorem C3_witness :
    ∃ b, gradeAttempt cfg1 seqW seqW = .ok b ∧
      b.shapeScore = 1 ∧ b.locationScore = 1 ∧ b.movementScore = 1 ∧
      ∃ r, alignSequences seqW seqW = .ok r ∧ r.totalCost = 0 :=
  C3_identity cfg1 seqW validInput_seqW

/-- C4: grading fails with InvalidInput when either input sequence has zero
frames, and no ScoreBundle is returned — the call fails wholly. -/
theorem C4_empty_invalid (cfg : Config) (ref att : LandmarkSequence)
    (h : ref.frames = [] ∨ att.frames = []) :
    gradeAttempt cfg ref att = .error .InvalidInput ∧
      ∀ b, gradeAttempt cfg ref att ≠ .ok b := by
  have hal : alignSequences ref att = .error .InvalidInput := by
    unfold alignSequences
    rw [if_pos]
    rcases h with h | h <;> simp [h]
  have hg : gradeAttempt cfg ref att = .error .InvalidInput := by
    unfold gradeAttempt
    rw [hal]
  refine ⟨hg, ?_⟩
  intro b hb
  rw [hg] at hb
  cases hb

theorem C4_witness :
    gradeAttempt cfg1 seqW seqEmpty = .error .InvalidInput :=
  (C4_empty_invalid cfg1 seqW seqEmpty (Or.inr rfl)).1

theorem mkHeatmap_getD (ref att : LandmarkSequence) (path : List (ℕ × ℕ))
    (i : ℕ) (hi : i < ref.frames.length) :
    ((mkHeatmap ref att path).getD i default).timestamp = (frameAt ref i).timestamp ∧
    ((mkHeatmap ref att path).getD i default).values.length = headLandmarkCount ref := by
  unfold mkHeatmap
  rw [List.getD_eq_getElem?_getD, List.getElem?_map, List.getElem?_range hi]
  simp

/-- C5: the heatmap of a successful grading call has exactly one record per
reference frame — its length equals the reference frame count, and record i
carries the reference frame's timestamp and one divergence value per
landmark. -/
theorem C5_heatmap_length (cfg : Config) (ref att : LandmarkSequence)
    (hv : validInput cfg ref att) :
    ∃ b, gradeAttempt cfg ref att = .ok b ∧
      b.heatmap.length = ref.frames.length ∧
      ∀ i, i < ref.frames.length →
        (b.heatmap.getD i default).timestamp = (frameAt ref i).timestamp ∧
        (b.heatmap.getD i default).values.length = headLandmarkCount ref := by
  refine ⟨_, gradeAttempt_eq_ok cfg ref att hv, ?_, ?_⟩
  · simp [mkHeatmap]
  · intro i hi
    exact mkHeatmap_getD ref att _ i hi

theorem C5_witness : heatmapLenVal cfg1 seqW seqW = seqW.frames.length := by
  obtain ⟨b, hok, hlen, _⟩ := C5_heatmap_length cfg1 seqW seqW validInput_seqW
  unfold heatmapLenVal
  rw [hok]
  exact hlen

theorem meanList_nonneg {l : List ℝ} (h : ∀ x ∈ l, 0 ≤ x) : 0 ≤ meanList l :=
  div_nonneg (List.sum_nonneg h) (Nat.cast_nonneg _)

theorem scoreMap_mem_Icc {c m : ℝ} (hc : 0 < c) (hm : 0 ≤ m) :
    scoreMap c m ∈ Set.Icc (0 : ℝ) 1 := by
  unfold scoreMap
  have hq : 0 ≤ m / c := div_nonneg hm hc.le
  constructor
  · exact div_nonneg zero_le_one (by linarith)
  · rw [div_le_one (by linarith)]
    linarith

theorem scoreMap_strictAntiOn {c : ℝ} (hc : 0 < c) :
    StrictAntiOn (scoreMap c) (Set.Ici 0) := by
  intro a ha b hb hab
  unfold scoreMap
  have ha0 : (0 : ℝ) ≤ a := ha
  have hqa : 0 ≤ a / c := div_nonneg ha0 hc.le
  apply one_div_lt_one_div_of_lt (by linarith)
  gcongr

theorem scoreMap_tendsto {c : ℝ} (hc : 0 < c) :
    Filter.Tendsto (scoreMap c) Filter.atTop (nhds 0) := by
  have h1 : Filter.Tendsto (fun m : ℝ => 1 + m / c) Filter.atTop Filter.atTop := by
    apply Filter.tendsto_atTop_add_const_left
    exact Filter.Tendsto.atTop_div_const hc Filter.tendsto_id
  have h2 := h1.inv_tendsto_atTop
  unfold scoreMap
  simpa [one_div] using h2

theorem movementDists_nonneg (ref att : LandmarkSequence) (path : List (ℕ × ℕ)) :
    ∀ x ∈ movementDists ref att path, 0 ≤ x := by
  intro x hx
  unfold movementDists at hx
  obtain ⟨p, _, hsome⟩ := List.mem_filterMap.mp hx
  by_cases hcond : p.1 + 1 < ref.frames.length ∧ p.2 + 1 < att.frames.length
  · rw [if_pos hcond] at hsome
    injection hsome with h
    rw [← h]
    exact frameDist_nonneg _ _
  · rw [if_neg hcond] at hsome
    cases hsome

/-- C6: every ScoreBundle's shapeScore, locationScore and movementScore lie
in [0,1]; each is the image of a mean aligned-pair distance under the
mapping scoreMap, which is monotonic decreasing on [0,∞), maps distance 0
to 1, and tends to 0 as the distance tends to infinity. -/
theorem C6_scores_in_unit (cfg : Config) (ref att : LandmarkSequence)
    (hv : validInput cfg ref att) (hs : 0 < cfg.shapeScale)
    (hl : 0 < cfg.locationScale) (hm : 0 < cfg.movementScale) :
    ∃ b, gradeAttempt cfg ref att = .ok b ∧
      b.shapeScore ∈ Set.Icc (0 : ℝ) 1 ∧ b.locationScore ∈ Set.Icc (0 : ℝ) 1 ∧
      b.movementScore ∈ Set.Icc (0 : ℝ) 1 ∧
      b.shapeScore = scoreMap cfg.shapeScale
        (meanList ((rawPath ref att).map fun p => shapeDist cfg ref att p.1 p.2)) ∧
      b.locationScore = scoreMap cfg.locationScale
        (meanList ((rawPath ref att).map fun p => locDist ref att p.1 p.2)) ∧
      b.movementScore = scoreMap cfg.movementScale
        (meanList (movementDists ref att (rawPath ref att))) ∧
      ∀ c : ℝ, 0 < c → scoreMap c 0 = 1 ∧ StrictAntiOn (scoreMap c) (Set.Ici 0) ∧
        Filter.Tendsto (scoreMap c) Filter.atTop (nhds 0) := by
  refine ⟨_, gradeAttempt_eq_ok cfg ref att hv, ?_, ?_, ?_, rfl, rfl, rfl, ?_⟩
  · refine scoreMap_mem_Icc hs (meanList_nonneg ?_)
    intro x hx
    obtain ⟨p, _, rfl⟩ := List.mem_map.mp hx
    exact frameDist_nonneg _ _
  · refine scoreMap_mem_Icc hl (meanList_nonneg ?_)
    intro x hx
    obtain ⟨p, _, rfl⟩ := List.mem_map.mp hx
    exact frameDist_nonneg _ _
  · exact scoreMap_mem_Icc hm (meanList_nonneg (movementDists_nonneg ref att _))
  · intro c hcpos
    exact ⟨scoreMap_zero c, scoreMap_strictAntiOn hcpos, scoreMap_tendsto hcpos⟩

theorem C6_witness :
    shapeScoreVal cfg1 seqW seqW ∈ Set.Icc (0 : ℝ) 1 ∧
    locationScoreVal cfg1 seqW seqW ∈ Set.Icc (0 : ℝ) 1 ∧
    movementScoreVal cfg1 seqW seqW ∈ Set.Icc (0 : ℝ) 1 := by
  obtain ⟨b, hok, h1, h2, h3, _⟩ := C6_scores_in_unit cfg1 seqW seqW validInput_seqW
    (by norm_num [cfg1]) (by norm_num [cfg1]) (by norm_num [cfg1])
  unfold shapeScoreVal locationScoreVal movementScoreVal
  rw [hok]
  exact ⟨h1, h2, h3⟩

theorem sqrt_eval {a b : ℝ} (hb : 0 ≤ b) (h : b ^ 2 = a) : Real.sqrt a = b := by
  rw [← h, Real.sqrt_sq hb]

theorem lmDist_lmAdd (a v : Landmark) : lmDist a (lmAdd a v) = offsetNorm v := by
  unfold lmDist lmAdd offsetNorm
  congr 1
  ring

theorem lmSub_add_add (p c v : Landmark) : lmSub (lmAdd p v) (lmAdd c v) = lmSub p c := by
  unfold lmSub lmAdd
  congr 1 <;> ring

theorem zip_translate_dist_sum (v : Landmark) (l : List Landmark) :
    ((l.zip (l.map fun p => lmAdd p v)).map fun p => lmDist p.1 p.2).sum =
      l.length * offsetNorm v := by
  induction l with
  | nil => simp
  | cons a t ih =>
    simp only [List.map_cons, List.zip_cons_cons, List.sum_cons, ih, lmDist_lmAdd,
      List.length_cons]
    push_cast
    ring

theorem frameAt_translate (u : Landmark) (A : LandmarkSequence) (k : ℕ)
    (hk : k < A.frames.length) :
    frameAt (translateSeq u A) k =
      { frameAt A k with landmarks := (frameAt A k).landmarks.map fun p => lmAdd p u } := by
  unfold frameAt translateSeq
  simp only [List.getD_eq_getElem?_getD, List.getElem?_map, List.getElem?_eq_getElem hk]
  rfl

theorem getD_map_lmAdd (l : List Landmark) (u : Landmark) (k : ℕ) (hk : k < l.length) :
    (l.map fun p => lmAdd p u).getD k default = lmAdd (l.getD k default) u := by
  simp only [List.getD_eq_getElem?_getD, List.getElem?_map, List.getElem?_eq_getElem hk]
  rfl

theorem recenter_translate (k : ℕ) (f : Frame) (u : Landmark)
    (hk : k < f.landmarks.length) :
    recenter k { f with landmarks := f.landmarks.map fun p => lmAdd p u } =
      recenter k f := by
  unfold recenter
  simp only [List.map_map, getD_map_lmAdd f.landmarks u k hk]
  congr 1
  apply List.map_congr_left
  intro p _
  exact lmSub_add_add p _ u

theorem topologyOk_mem {ref att : LandmarkSequence} (h : topologyOk ref att = true) :
    (∀ f ∈ ref.frames, f.landmarks.length = headLandmarkCount ref) ∧
    (∀ f ∈ att.frames, f.landmarks.length = headLandmarkCount ref) := by
  unfold topologyOk at h
  rw [List.all_eq_true] at h
  constructor <;> intro f hf
  · simpa using h f (List.mem_append.mpr (Or.inl hf))
  · simpa using h f (List.mem_append.mpr (Or.inr hf))

theorem frameAt_mem {s : LandmarkSequence} {k : ℕ} (hk : k < s.frames.length) :
    frameAt s k ∈ s.frames := by
  unfold frameAt
  rw [List.getD_eq_getElem?_getD, List.getElem?_eq_getElem hk]
  exact List.getElem_mem hk

theorem meanList_const {c : ℝ} {l : List ℝ} (h : ∀ x ∈ l, x = c) (hne : l ≠ []) :
    meanList l = c := by
  have hrep := List.eq_replicate_of_mem h
  unfold meanList
  rw [hrep, List.sum_replicate, List.length_replicate, nsmul_eq_mul]
  have hlen : (l.length : ℝ) ≠ 0 := by
    have : l.length ≠ 0 := by
      intro h0
      exact hne (List.eq_nil_of_length_eq_zero h0)
    exact_mod_cast this
  rw [hrep] at hlen
  rw [List.length_replicate] at hlen
  field_simp

theorem translate_scores (cfg : Config) (A : LandmarkSequence) (u : Landmark)
    (hv : validInput cfg A (translateSeq u A))
    (hp : rawPath A (translateSeq u A) = diagPath (A.frames.length - 1)) :
    shapeScoreVal cfg A (translateSeq u A) = 1 ∧
    locationScoreVal cfg A (translateSeq u A) =
      scoreMap cfg.locationScale ((headLandmarkCount A : ℝ) * offsetNorm u) := by
  have hok := gradeAttempt_eq_ok cfg A (translateSeq u A) hv
  have hN : 1 ≤ A.frames.length := by
    have := hv.1
    rw [List.isEmpty_eq_false] at this
    exact List.length_pos.mpr this
  have htop := topologyOk_mem hv.2.2.1
  have hrc : cfg.recenterIdx < headLandmarkCount A := hv.2.2.2
  have hkN : ∀ k ∈ List.range (A.frames.length - 1 + 1), k < A.frames.length := by
    intro k hk
    have := List.mem_range.mp hk
    omega
  have hLk : ∀ k, k < A.frames.length →
      (frameAt A k).landmarks.length = headLandmarkCount A := by
    intro k hk
    exact htop.1 _ (frameAt_mem hk)
  constructor
  · have h1 : shapeScoreVal cfg A (translateSeq u A) = scoreMap cfg.shapeScale
        (meanList ((rawPath A (translateSeq u A)).map
          fun p => shapeDist cfg A (translateSeq u A) p.1 p.2)) := by
      unfold shapeScoreVal
      rw [hok]
    rw [h1, hp]
    have hz : ∀ x ∈ (diagPath (A.frames.length - 1)).map
        (fun p => shapeDist cfg A (translateSeq u A) p.1 p.2), x = 0 := by
      intro x hx
      obtain ⟨p, hpmem, rfl⟩ := List.mem_map.mp hx
      obtain ⟨k, hkmem, rfl⟩ := List.mem_map.mp hpmem
      have hk : k < A.frames.length := hkN k hkmem
      show shapeDist cfg A (translateSeq u A) k k = 0
      unfold shapeDist
      rw [frameAt_translate u A k hk,
        recenter_translate cfg.recenterIdx (frameAt A k) u (by rw [hLk k hk]; exact hrc)]
      exact frameDist_self _
    rw [meanList_zero hz, scoreMap_zero]
  · have h1 : locationScoreVal cfg A (translateSeq u A) = scoreMap cfg.locationScale
        (meanList ((rawPath A (translateSeq u A)).map
          fun p => locDist A (translateSeq u A) p.1 p.2)) := by
      unfold locationScoreVal
      rw [hok]
    rw [h1, hp]
    have hc : ∀ x ∈ (diagPath (A.frames.length - 1)).map
        (fun p => locDist A (translateSeq u A) p.1 p.2),
        x = (headLandmarkCount A : ℝ) * offsetNorm u := by
      intro x hx
      obtain ⟨p, hpmem, rfl⟩ := List.mem_map.mp hx
      obtain ⟨k, hkmem, rfl⟩ := List.mem_map.mp hpmem
      have hk : k < A.frames.length := hkN k hkmem
      show locDist A (translateSeq u A) k k = (headLandmarkCount A : ℝ) * offsetNorm u
      unfold locDist
      rw [frameAt_translate u A k hk]
      unfold frameDist
      rw [zip_translate_dist_sum, hLk k hk]
    have hne : (diagPath (A.frames.length - 1)).map
        (fun p => locDist A (translateSeq u A) p.1 p.2) ≠ [] := by
      simp [diagPath]
    rw [meanList_const hc hne]

/-- C7 (amended): if B is A with every landmark uniformly translated by a
constant nonzero offset and the returned alignment path is the diagonal,
then shapeScore(A,B) = 1 while locationScore(A,B) < 1, and locationScore
decreases strictly as the offset magnitude grows. -/
theorem C7_translation (cfg : Config) (A : LandmarkSequence) (v w : Landmark)
    (hv : validInput cfg A (translateSeq v A))
    (hw : validInput cfg A (translateSeq w A))
    (hls : 0 < cfg.locationScale)
    (hpv : rawPath A (translateSeq v A) = diagPath (A.frames.length - 1))
    (hpw : rawPath A (translateSeq w A) = diagPath (A.frames.length - 1))
    (h0 : 0 < offsetNorm v) (hvw : offsetNorm v < offsetNorm w) :
    shapeScoreVal cfg A (translateSeq v A) = 1 ∧
    locationScoreVal cfg A (translateSeq v A) < 1 ∧
    locationScoreVal cfg A (translateSeq w A) <
      locationScoreVal cfg A (translateSeq v A) := by
  obtain ⟨hsv, hlv⟩ := translate_scores cfg A v hv hpv
  obtain ⟨-, hlw⟩ := translate_scores cfg A w hw hpw
  have hL : 1 ≤ headLandmarkCount A := by
    have := hv.2.2.2
    omega
  have hL0 : (0 : ℝ) < (headLandmarkCount A : ℝ) := by
    exact_mod_cast hL
  have hmv : (0 : ℝ) < (headLandmarkCount A : ℝ) * offsetNorm v := mul_pos hL0 h0
  have hmw : (headLandmarkCount A : ℝ) * offsetNorm v <
      (headLandmarkCount A : ℝ) * offsetNorm w := by
    exact mul_lt_mul_of_pos_left hvw hL0
  refine ⟨hsv, ?_, ?_⟩
  · rw [hlv]
    have := scoreMap_strictAntiOn hls (Set.left_mem_Ici)
      (Set.mem_Ici.mpr hmv.le) hmv
    rw [scoreMap_zero] at this
    exact this
  · rw [hlv, hlw]
    exact scoreMap_strictAntiOn hls (Set.mem_Ici.mpr hmv.le)
      (Set.mem_Ici.mpr (hmv.trans hmw).le) hmw

theorem rawPath_diag_one (u : Landmark) :
    rawPath seqW (translateSeq u seqW) = diagPath 0 := by
  unfold rawPath
  have h1 : (translateSeq u seqW).frames.length = 1 := by
    simp [translateSeq, seqW]
  have h2 : seqW.frames.length = 1 := by simp [seqW]
  rw [h1, h2]
  have h3 : dtwPath (pairDist seqW (translateSeq u seqW)) (1 - 1) (1 - 1) = [(0, 0)] := by
    simp [dtwPath]
  rw [h3]
  rfl

theorem validInput_seqW_translate (u : Landmark) :
    validInput cfg1 seqW (translateSeq u seqW) := by
  refine ⟨by simp [seqW], by simp [translateSeq, seqW], ?_,
    by simp [seqW, headLandmarkCount, cfg1]⟩
  simp [topologyOk, translateSeq, seqW, headLandmarkCount]

theorem offsetNorm_offV : offsetNorm offV = 5 := by
  have h : offV.x ^ 2 + offV.y ^ 2 + offV.z ^ 2 = 25 := by norm_num [offV]
  rw [offsetNorm, h]
  exact sqrt_eval (by norm_num) (by norm_num)

theorem offsetNorm_offW : offsetNorm offW = 10 := by
  have h : offW.x ^ 2 + offW.y ^ 2 + offW.z ^ 2 = 100 := by norm_num [offW]
  rw [offsetNorm, h]
  exact sqrt_eval (by norm_num) (by norm_num)

theorem C7_witness :
    shapeScoreVal cfg1 seqW (translateSeq offV seqW) = 1 ∧
    locationScoreVal cfg1 seqW (translateSeq offV seqW) < 1 ∧
    locationScoreVal cfg1 seqW (translateSeq offW seqW) <
      locationScoreVal cfg1 seqW (translateSeq offV seqW) :=
  C7_translation cfg1 seqW offV offW (validInput_seqW_translate offV)
    (validInput_seqW_translate offW) (by norm_num [cfg1])
    (rawPath_diag_one offV) (rawPath_diag_one offW)
    (by rw [offsetNorm_offV]; norm_num)
    (by rw [offsetNorm_offV, offsetNorm_offW]; norm_num)

theorem lmDist_x (a b : ℝ) : lmDist ⟨a, 0, 0⟩ ⟨b, 0, 0⟩ = |a - b| := by
  show Real.sqrt ((a - b) ^ 2 + ((0:ℝ) - 0) ^ 2 + ((0:ℝ) - 0) ^ 2) = |a - b|
  rw [show (a - b) ^ 2 + ((0:ℝ) - 0) ^ 2 + ((0:ℝ) - 0) ^ 2 = (a - b) ^ 2 by ring,
    Real.sqrt_sq_eq_abs]

theorem frameDist_x2 (t1 t2 : ℤ) (c1 c2 a b c e : ℝ) :
    frameDist ⟨t1, [⟨a, 0, 0⟩, ⟨b, 0, 0⟩], c1⟩ ⟨t2, [⟨c, 0, 0⟩, ⟨e, 0, 0⟩], c2⟩ =
      |a - c| + |b - e| := by
  unfold frameDist
  simp [lmDist_x]

theorem dtwPath_zero_zero (d : ℕ → ℕ → ℝ) : dtwPath d 0 0 = [(0, 0)] := by
  simp [dtwPath]

theorem dtwPath_zero_succ (d : ℕ → ℕ → ℝ) (j : ℕ) :
    dtwPath d 0 (j + 1) = dtwPath d 0 j ++ [(0, j + 1)] := by
  simp [dtwPath]

theorem dtwPath_succ_succ_diag (d : ℕ → ℕ → ℝ) (i j : ℕ)
    (h : dtwCost d i j ≤ dtwCost d i (j + 1) ∧ dtwCost d i j ≤ dtwCost d (i + 1) j) :
    dtwPath d (i + 1) (j + 1) = dtwPath d i j ++ [(i + 1, j + 1)] := by
  simp only [dtwPath]
  rw [if_pos h]

theorem dtwPath_succ_succ_up (d : ℕ → ℕ → ℝ) (i j : ℕ)
    (h1 : ¬(dtwCost d i j ≤ dtwCost d i (j + 1) ∧ dtwCost d i j ≤ dtwCost d (i + 1) j))
    (h2 : dtwCost d i (j + 1) ≤ dtwCost d (i + 1) j) :
    dtwPath d (i + 1) (j + 1) = dtwPath d i (j + 1) ++ [(i + 1, j + 1)] := by
  simp only [dtwPath]
  rw [if_neg h1, if_pos h2]

/-- C7 counterexample: with all scale constants 1, grading `ceA` against its
uniform translate by (10,0,0) yields shapeScore 1/5 — far from 1.0 — because
the optimal warping pairs frames of different hand spreads, so translation
invariance of shapeScore fails for general sequences. -/
theorem C7_counterexample :
    shapeScoreVal cfg1 ceA (translateSeq ceV ceA) = 1 / 5 := by
  have hBeq : translateSeq ceV ceA = ceB := by
    simp [translateSeq, ceA, ceV, ceB, lmAdd]
    norm_num
  rw [hBeq]
  have fA0 : frameAt ceA 0 = ⟨0, [⟨0, 0, 0⟩, ⟨1, 0, 0⟩], 1⟩ := rfl
  have fA1 : frameAt ceA 1 = ⟨1, [⟨-10, 0, 0⟩, ⟨-1, 0, 0⟩], 1⟩ := rfl
  have fA2 : frameAt ceA 2 = ⟨2, [⟨-20, 0, 0⟩, ⟨-3, 0, 0⟩], 1⟩ := rfl
  have fB0 : frameAt ceB 0 = ⟨0, [⟨10, 0, 0⟩, ⟨11, 0, 0⟩], 1⟩ := rfl
  have fB1 : frameAt ceB 1 = ⟨1, [⟨0, 0, 0⟩, ⟨9, 0, 0⟩], 1⟩ := rfl
  have fB2 : frameAt ceB 2 = ⟨2, [⟨-10, 0, 0⟩, ⟨7, 0, 0⟩], 1⟩ := rfl
  have hd00 : pairDist ceA ceB 0 0 = 20 := by
    show frameDist (frameAt ceA 0) (frameAt ceB 0) = 20
    rw [fA0, fB0, frameDist_x2]; norm_num
  have hd01 : pairDist ceA ceB 0 1 = 8 := by
    show frameDist (frameAt ceA 0) (frameAt ceB 1) = 8
    rw [fA0, fB1, frameDist_x2]; norm_num
  have hd02 : pairDist ceA ceB 0 2 = 16 := by
    show frameDist (frameAt ceA 0) (frameAt ceB 2) = 16
    rw [fA0, fB2, frameDist_x2]; norm_num
  have hd10 : pairDist ceA ceB 1 0 = 32 := by
    show frameDist (frameAt ceA 1) (frameAt ceB 0) = 32
    rw [fA1, fB0, frameDist_x2]; norm_num
  have hd11 : pairDist ceA ceB 1 1 = 20 := by
    show frameDist (frameAt ceA 1) (frameAt ceB 1) = 20
    rw [fA1, fB1, frameDist_x2]; norm_num
  have hd12 : pairDist ceA ceB 1 2 = 8 := by
    show frameDist (frameAt ceA 1) (frameAt ceB 2) = 8
    rw [fA1, fB2, frameDist_x2]; norm_num
  have hd20 : pairDist ceA ceB 2 0 = 44 := by
    show frameDist (frameAt ceA 2) (frameAt ceB 0) = 44
    rw [fA2, fB0, frameDist_x2]; norm_num
  have hd21 : pairDist ceA ceB 2 1 = 32 := by
    show frameDist (frameAt ceA 2) (frameAt ceB 1) = 32
    rw [fA2, fB1, frameDist_x2]; norm_num
  have c00 : dtwCost (pairDist ceA ceB) 0 0 = 20 := by
    rw [dtwCost_zero_zero, hd00]
  have c01 : dtwCost (pairDist ceA ceB) 0 1 = 28 := by
    show dtwCost (pairDist ceA ceB) 0 (0 + 1) = 28
    rw [dtwCost_zero_succ]
    norm_num [c00, hd01]
  have c02 : dtwCost (pairDist ceA ceB) 0 2 = 44 := by
    show dtwCost (pairDist ceA ceB) 0 (1 + 1) = 44
    rw [dtwCost_zero_succ]
    norm_num [c01, hd02]
  have c10 : dtwCost (pairDist ceA ceB) 1 0 = 52 := by
    show dtwCost (pairDist ceA ceB) (0 + 1) 0 = 52
    rw [dtwCost_succ_zero]
    norm_num [c00, hd10]
  have c20 : dtwCost (pairDist ceA ceB) 2 0 = 96 := by
    show dtwCost (pairDist ceA ceB) (1 + 1) 0 = 96
    rw [dtwCost_succ_zero]
    norm_num [c10, hd20]
  have c11 : dtwCost (pairDist ceA ceB) 1 1 = 40 := by
    show dtwCost (pairDist ceA ceB) (0 + 1) (0 + 1) = 40
    rw [dtwCost_succ_succ]
    norm_num [c00, c01, c10, hd11, min_def]
  have c12 : dtwCost (pairDist ceA ceB) 1 2 = 36 := by
    show dtwCost (pairDist ceA ceB) (0 + 1) (1 + 1) = 36
    rw [dtwCost_succ_succ]
    norm_num [c01, c02, c11, hd12, min_def]
  have c21 : dtwCost (pairDist ceA ceB) 2 1 = 72 := by
    show dtwCost (pairDist ceA ceB) (1 + 1) (0 + 1) = 72
    rw [dtwCost_succ_succ]
    norm_num [c10, c11, c20, hd21, min_def]
  have p00 : dtwPath (pairDist ceA ceB) 0 0 = [(0, 0)] := dtwPath_zero_zero _
  have p01 : dtwPath (pairDist ceA ceB) 0 1 = [(0, 0), (0, 1)] := by
    show dtwPath (pairDist ceA ceB) 0 (0 + 1) = _
    rw [dtwPath_zero_succ, p00]
    decide
  have p12 : dtwPath (pairDist ceA ceB) 1 2 = [(0, 0), (0, 1), (1, 2)] := by
    show dtwPath (pairDist ceA ceB) (0 + 1) (1 + 1) = _
    rw [dtwPath_succ_succ_diag _ 0 1 ⟨by norm_num [c01, c02], by norm_num [c01, c11]⟩, p01]
    decide
  have p22 : dtwPath (pairDist ceA ceB) 2 2 = [(0, 0), (0, 1), (1, 2), (2, 2)] := by
    show dtwPath (pairDist ceA ceB) (1 + 1) (1 + 1) = _
    rw [dtwPath_succ_succ_up _ 1 1 (by norm_num [c11, c12, c21]) (by norm_num [c12, c21]), p12]
    decide
  have rcA0 : recenter 0 (⟨0, [⟨0, 0, 0⟩, ⟨1, 0, 0⟩], 1⟩ : Frame) =
      ⟨0, [⟨0, 0, 0⟩, ⟨1, 0, 0⟩], 1⟩ := by
    simp [recenter, lmSub, List.getD_cons_zero]
  have rcA1 : recenter 0 (⟨1, [⟨-10, 0, 0⟩, ⟨-1, 0, 0⟩], 1⟩ : Frame) =
      ⟨1, [⟨0, 0, 0⟩, ⟨9, 0, 0⟩], 1⟩ := by
    simp [recenter, lmSub, List.getD_cons_zero]
    norm_num
  have rcA2 : recenter 0 (⟨2, [⟨-20, 0, 0⟩, ⟨-3, 0, 0⟩], 1⟩ : Frame) =
      ⟨2, [⟨0, 0, 0⟩, ⟨17, 0, 0⟩], 1⟩ := by
    simp [recenter, lmSub, List.getD_cons_zero]
    norm_num
  have rcB0 : recenter 0 (⟨0, [⟨10, 0, 0⟩, ⟨11, 0, 0⟩], 1⟩ : Frame) =
      ⟨0, [⟨0, 0, 0⟩, ⟨1, 0, 0⟩], 1⟩ := by
    simp [recenter, lmSub, List.getD_cons_zero]
    norm_num
  have rcB1 : recenter 0 (⟨1, [⟨0, 0, 0⟩, ⟨9, 0, 0⟩], 1⟩ : Frame) =
      ⟨1, [⟨0, 0, 0⟩, ⟨9, 0, 0⟩], 1⟩ := by
    simp [recenter, lmSub, List.getD_cons_zero]
  have rcB2 : recenter 0 (⟨2, [⟨-10, 0, 0⟩, ⟨7, 0, 0⟩], 1⟩ : Frame) =
      ⟨2, [⟨0, 0, 0⟩, ⟨17, 0, 0⟩], 1⟩ := by
    simp [recenter, lmSub, List.getD_cons_zero]
    norm_num
  have s00 : shapeDist cfg1 ceA ceB 0 0 = 0 := by
    show frameDist (recenter 0 (frameAt ceA 0)) (recenter 0 (frameAt ceB 0)) = 0
    rw [fA0, fB0, rcA0, rcB0, frameDist_x2]; norm_num
  have s01 : shapeDist cfg1 ceA ceB 0 1 = 8 := by
    show frameDist (recenter 0 (frameAt ceA 0)) (recenter 0 (frameAt ceB 1)) = 8
    rw [fA0, fB1, rcA0, rcB1, frameDist_x2]; norm_num
  have s12 : shapeDist cfg1 ceA ceB 1 2 = 8 := by
    show frameDist (recenter 0 (frameAt ceA 1)) (recenter 0 (frameAt ceB 2)) = 8
    rw [fA1, fB2, rcA1, rcB2, frameDist_x2]; norm_num
  have s22 : shapeDist cfg1 ceA ceB 2 2 = 0 := by
    show frameDist (recenter 0 (frameAt ceA 2)) (recenter 0 (frameAt ceB 2)) = 0
    rw [fA2, fB2, rcA2, rcB2, frameDist_x2]; norm_num
  have hval : validInput cfg1 ceA ceB :=
    ⟨by simp [ceA], by simp [ceB],
     by simp [topologyOk, ceA, ceB, headLandmarkCount],
     by simp [headLandmarkCount, ceA, cfg1]⟩
  have hok := gradeAttempt_eq_ok cfg1 ceA ceB hval
  unfold shapeScoreVal
  rw [hok]
  show scoreMap cfg1.shapeScale
    (meanList ((rawPath ceA ceB).map fun p => shapeDist cfg1 ceA ceB p.1 p.2)) = 1 / 5
  have hrp : rawPath ceA ceB = dtwPath (pairDist ceA ceB) 2 2 := rfl
  rw [hrp, p22]
  simp only [List.map_cons, List.map_nil]
  rw [show shapeDist cfg1 ceA ceB (0, 0).1 (0, 0).2 = 0 from s00,
      show shapeDist cfg1 ceA ceB (0, 1).1 (0, 1).2 = 8 from s01,
      show shapeDist cfg1 ceA ceB (1, 2).1 (1, 2).2 = 8 from s12,
      show shapeDist cfg1 ceA ceB (2, 2).1 (2, 2).2 = 0 from s22]
  have hm : meanList [(0 : ℝ), 8, 8, 0] = 4 := by
    unfold meanList
    norm_num
  rw [hm]
  show scoreMap 1 4 = 1 / 5
  unfold scoreMap
  norm_num

theorem extractLoop_eq (ts : ℕ → ℤ) :
    ∀ (l : List VideoFrame) (idx : ℕ),
      extractLoop ts l idx = (List.enumFrom idx l).filterMap (sampleRecord ts) := by
  intro l
  induction l with
  | nil => intro idx; rfl
  | cons f rest ih =>
    intro idx
    cases hf : f.hands with
    | nil =>
      simp only [extractLoop, sampleRecord, hf, List.enumFrom_cons, List.filterMap_cons]
      by_cases h3 : idx % 3 = 0
      · simp only [if_pos h3]
        exact ih (idx + 1)
      · simp only [if_neg h3]
        exact ih (idx + 1)
    | cons h0 t =>
      simp only [extractLoop, sampleRecord, hf, List.enumFrom_cons, List.filterMap_cons]
      by_cases h3 : idx % 3 = 0
      · simp only [if_pos h3]
        rw [ih (idx + 1)]
      · simp only [if_neg h3]
        exact ih (idx + 1)

theorem sampleRecord_shape {ts : ℕ → ℤ} {p : ℕ × VideoFrame} {f : RawFrame}
    (h : sampleRecord ts p = some f) :
    p.1 % 3 = 0 ∧ ∃ h0 t, p.2.hands = h0 :: t ∧
      f = ⟨ts p.1, [h0.landmarks], [h0.label], h0.score⟩ := by
  unfold sampleRecord at h
  by_cases h3 : p.1 % 3 = 0
  · rw [if_pos h3] at h
    cases hp : p.2.hands with
    | nil =>
      rw [hp] at h
      cases h
    | cons h0 t =>
      rw [hp] at h
      injection h with h4
      exact ⟨h3, h0, t, rfl, h4.symm⟩
  · rw [if_neg h3] at h
    cases h

theorem extractLoop_mem_shape {ts : ℕ → ℤ} {l : List VideoFrame} {idx : ℕ} {f : RawFrame}
    (hf : f ∈ extractLoop ts l idx) :
    f.landmarks.length = 1 ∧ f.handedness.length = 1 := by
  rw [extractLoop_eq] at hf
  obtain ⟨p, _, hsome⟩ := List.mem_filterMap.mp hf
  obtain ⟨_, h0, t, _, rfl⟩ := sampleRecord_shape hsome
  exact ⟨rfl, rfl⟩

theorem extractLoop_timestamp_mem {ts : ℕ → ℤ} {l : List VideoFrame} {idx : ℕ} {f : RawFrame}
    (hf : f ∈ extractLoop ts l idx) :
    ∃ i, idx ≤ i ∧ i < idx + l.length ∧ f.timestamp = ts i := by
  rw [extractLoop_eq] at hf
  obtain ⟨p, hp, hsome⟩ := List.mem_filterMap.mp hf
  obtain ⟨i, vf⟩ := p
  obtain ⟨hle, hlt, -⟩ := List.mem_enumFrom hp
  obtain ⟨-, h0, t, -, rfl⟩ := sampleRecord_shape hsome
  exact ⟨i, hle, hlt, rfl⟩

theorem pairwise_fst_le_enumFrom (l : List VideoFrame) :
    ∀ idx, List.Pairwise (fun p q : ℕ × VideoFrame => p.1 ≤ q.1) (List.enumFrom idx l) := by
  induction l with
  | nil => intro idx; simp
  | cons f rest ih =>
    intro idx
    rw [List.enumFrom_cons]
    refine List.Pairwise.cons ?_ (ih (idx + 1))
    intro q hq
    obtain ⟨q1, q2⟩ := q
    have h1 := (List.mem_enumFrom hq).1
    show idx ≤ q1
    omega

theorem extractLoop_chain (ts : ℕ → ℤ) (hmono : Monotone ts)
    (l : List VideoFrame) (idx : ℕ) :
    List.Chain' (· ≤ ·) ((extractLoop ts l idx).map RawFrame.timestamp) := by
  rw [extractLoop_eq, List.map_filterMap]
  apply List.Pairwise.chain'
  rw [List.pairwise_filterMap]
  refine (pairwise_fst_le_enumFrom l idx).imp ?_
  intro p q hpq b hb b' hb'
  simp only [Option.mem_def, Option.map_eq_some'] at hb hb'
  obtain ⟨f1, hf1, rfl⟩ := hb
  obtain ⟨f2, hf2, rfl⟩ := hb'
  obtain ⟨-, h0, t, -, rfl⟩ := sampleRecord_shape hf1
  obtain ⟨-, h0', t', -, rfl⟩ := sampleRecord_shape hf2
  exact hmono hpq

theorem realTs_mono {fps : ℚ} (hfps : 0 < fps) : Monotone (realTs fps) := by
  intro i j hij
  unfold realTs
  apply Int.floor_le_floor
  have h1 : (i : ℚ) ≤ (j : ℚ) := by exact_mod_cast hij
  gcongr

theorem kaggleTs_mono (fps : ℚ) : Monotone (kaggleTs fps) := by
  intro i j hij
  unfold kaggleTs
  by_cases h : 0 < fps
  · rw [if_pos h, if_pos h]
    exact realTs_mono h hij
  · rw [if_neg h, if_neg h]
    have h1 : (i : ℤ) ≤ (j : ℤ) := by exact_mod_cast hij
    omega

theorem extract_landmarks_ok {v : Video} {d : LandmarksData}
    (h : extract_landmarks v = some d) :
    d = ⟨0, durationMs v.fps v.frames.length, durationMs v.fps v.frames.length,
         extractLoop (realTs v.fps) v.frames 0⟩ := by
  simp only [extract_landmarks] at h
  by_cases he : (extractLoop (realTs v.fps) v.frames 0).isEmpty = true
  · rw [if_pos he] at h
    cases h
  · rw [if_neg he] at h
    injection h with h2
    exact h2.symm

theorem kaggle_extract_ok {v : Video} {d : LandmarksData}
    (h : extract_landmarks_from_video v = some d) :
    d = ⟨0, if 0 < v.fps then durationMs v.fps v.frames.length else 0,
         if 0 < v.fps then durationMs v.fps v.frames.length else 0,
         extractLoop (kaggleTs v.fps) v.frames 0⟩ := by
  simp only [extract_landmarks_from_video] at h
  by_cases he : (extractLoop (kaggleTs v.fps) v.frames 0).isEmpty = true
  · rw [if_pos he] at h
    cases h
  · rw [if_neg he] at h
    injection h with h2
    exact h2.symm

theorem realTs_30_0 : realTs 30 0 = 0 := by
  unfold realTs; norm_num

theorem realTs_30_3 : realTs 30 3 = 100 := by
  unfold realTs; norm_num

theorem durationMs_30_4 : durationMs 30 4 = 133 := by
  unfold durationMs; norm_num

theorem extract_wvidA : extract_landmarks wvidA = some wdataA := by
  have hloop : extractLoop (realTs wvidA.fps) wvidA.frames 0 = wdataA.frames := by
    simp [wvidA, wdataA, extractLoop, handW, realTs_30_0, realTs_30_3]
  have hd : durationMs wvidA.fps wvidA.frames.length = 133 := by
    show durationMs 30 4 = 133
    exact durationMs_30_4
  simp [extract_landmarks, hloop, hd, wdataA]

theorem kaggleTs_30_eq : ∀ i, kaggleTs 30 i = realTs 30 i := by
  intro i
  unfold kaggleTs realTs
  rw [if_pos (by norm_num)]

theorem kaggle_extract_wvidA : extract_landmarks_from_video wvidA = some wdataA := by
  have hloop : extractLoop (kaggleTs wvidA.fps) wvidA.frames 0 = wdataA.frames := by
    simp [wvidA, wdataA, extractLoop, handW, kaggleTs_30_eq, realTs_30_0, realTs_30_3]
  have hd : durationMs wvidA.fps wvidA.frames.length = 133 := by
    show durationMs 30 4 = 133
    exact durationMs_30_4
  have hfps : (0 : ℚ) < wvidA.fps := by norm_num [wvidA]
  simp [extract_landmarks_from_video, hloop, hd, hfps, wdataA]

theorem extract_wvidB : extract_landmarks wvidB = some wdataB := by
  have hloop : extractLoop (realTs wvidB.fps) wvidB.frames 0 = wdataB.frames := by
    simp [wvidB, wdataB, extractLoop, handW, realTs_30_0]
  have hd : durationMs wvidB.fps wvidB.frames.length = 133 := by
    show durationMs 30 4 = 133
    exact durationMs_30_4
  simp [extract_landmarks, hloop, hd, wdataB]

/-- C8: the serialized landmark sequences produced by both extraction
scripts conform to the persisted representation — integer millisecond
times, and per frame a list of per-hand landmark lists parallel to the
handedness labels (here both of length one). -/
theorem C8_serialized_shape :
    (∀ v d, extract_landmarks v = some d → conformsPersistedShape d ∧
      d.startTime = 0 ∧ d.endTime = d.duration) ∧
    (∀ v d, extract_landmarks_from_video v = some d → conformsPersistedShape d ∧
      d.startTime = 0 ∧ d.endTime = d.duration) := by
  constructor
  · intro v d hd
    obtain rfl := extract_landmarks_ok hd
    refine ⟨?_, rfl, rfl⟩
    intro f hf
    obtain ⟨h1, h2⟩ := extractLoop_mem_shape hf
    rw [h1, h2]
  · intro v d hd
    obtain rfl := kaggle_extract_ok hd
    refine ⟨?_, rfl, rfl⟩
    intro f hf
    obtain ⟨h1, h2⟩ := extractLoop_mem_shape hf
    rw [h1, h2]

theorem C8_witness :
    conformsPersistedShape wdataA ∧ wdataA.startTime = 0 ∧
      wdataA.endTime = wdataA.duration :=
  C8_serialized_shape.1 wvidA wdataA extract_wvidA

theorem synth_tsList (name : String) :
    tsList (create_synthetic_landmarks name) =
      (List.range 50).map (fun i : ℕ => (40 * i : ℤ)) := by
  unfold tsList create_synthetic_landmarks
  rw [List.map_map]
  apply List.map_congr_left
  intro i _
  show ⌊((i : ℚ) / 50) * 2000⌋ = 40 * (i : ℤ)
  rw [show ((i : ℚ) / 50) * 2000 = ((40 * i : ℕ) : ℚ) by push_cast; ring]
  rw [Int.floor_natCast]
  push_cast
  ring

/-- C9 (amended): every landmark sequence produced by the extraction and
synthetic-generation code has non-decreasing timestamps and duration at
least the last timestamp, provided the video's reported fps is positive;
the Kaggle script's fps ≤ 0 fallback violates the duration bound. -/
theorem C9_sequence_invariant :
    (∀ v d, 0 < v.fps → extract_landmarks v = some d → seqInvariant d) ∧
    (∀ v d, 0 < v.fps → extract_landmarks_from_video v = some d → seqInvariant d) ∧
    ∀ name, seqInvariant (create_synthetic_landmarks name) := by
  refine ⟨?_, ?_, ?_⟩
  · intro v d hfps hd
    obtain rfl := extract_landmarks_ok hd
    refine ⟨extractLoop_chain _ (realTs_mono hfps) _ _, ?_⟩
    intro t ht
    have hmem : t ∈ (extractLoop (realTs v.fps) v.frames 0).map RawFrame.timestamp := by
      obtain ⟨hne, heq⟩ := List.mem_getLast?_eq_getLast ht
      rw [heq]
      exact List.getLast_mem hne
    obtain ⟨f, hfmem, rfl⟩ := List.mem_map.mp hmem
    obtain ⟨i, -, hilt, hts⟩ := extractLoop_timestamp_mem hfmem
    rw [hts]
    show realTs v.fps i ≤ durationMs v.fps v.frames.length
    have hdm : durationMs v.fps v.frames.length = realTs v.fps v.frames.length := rfl
    rw [hdm]
    exact realTs_mono hfps (by omega)
  · intro v d hfps hd
    obtain rfl := kaggle_extract_ok hd
    refine ⟨extractLoop_chain _ (kaggleTs_mono v.fps) _ _, ?_⟩
    intro t ht
    have hmem : t ∈ (extractLoop (kaggleTs v.fps) v.frames 0).map RawFrame.timestamp := by
      obtain ⟨hne, heq⟩ := List.mem_getLast?_eq_getLast ht
      rw [heq]
      exact List.getLast_mem hne
    obtain ⟨f, hfmem, rfl⟩ := List.mem_map.mp hmem
    obtain ⟨i, -, hilt, hts⟩ := extractLoop_timestamp_mem hfmem
    rw [hts]
    show kaggleTs v.fps i ≤
      (if 0 < v.fps then durationMs v.fps v.frames.length else 0)
    rw [if_pos hfps]
    have hki : kaggleTs v.fps i = realTs v.fps i := by
      unfold kaggleTs realTs
      rw [if_pos hfps]
    have hdm : durationMs v.fps v.frames.length = realTs v.fps v.frames.length := rfl
    rw [hki, hdm]
    exact realTs_mono hfps (by omega)
  · intro name
    constructor
    · rw [synth_tsList name]
      apply List.Pairwise.chain'
      rw [List.pairwise_map]
      refine List.Pairwise.imp ?_ (List.pairwise_lt_range 50)
      intro a b hab
      omega
    · rw [synth_tsList name]
      intro t ht
      have hmem : t ∈ (List.range 50).map (fun i : ℕ => (40 * i : ℤ)) := by
        obtain ⟨hne, heq⟩ := List.mem_getLast?_eq_getLast ht
        rw [heq]
        exact List.getLast_mem hne
      obtain ⟨i, hi, rfl⟩ := List.mem_map.mp hmem
      have hi50 : i < 50 := List.mem_range.mp hi
      show (40 * i : ℤ) ≤ 2000
      omega

theorem C9_witness :
    seqInvariant wdataA ∧ seqInvariant (create_synthetic_landmarks "water") :=
  ⟨C9_sequence_invariant.1 wvidA wdataA (by norm_num [wvidA]) extract_wvidA,
   C9_sequence_invariant.2.2 "water"⟩

theorem kaggle_extract_kvid0 : extract_landmarks_from_video kvid0 = some kdata0 := by
  have hk0 : kaggleTs 0 0 = 0 := by norm_num [kaggleTs]
  have hk3 : kaggleTs 0 3 = 99 := by norm_num [kaggleTs]
  have hloop : extractLoop (kaggleTs kvid0.fps) kvid0.frames 0 = kdata0.frames := by
    simp [kvid0, kdata0, extractLoop, handW, hk0, hk3]
  have hfp : ¬((0 : ℚ) < kvid0.fps) := by norm_num [kvid0]
  simp [extract_landmarks_from_video, hloop, hfp, kdata0]

theorem C9_counterexample :
    extract_landmarks_from_video kvid0 = some kdata0 ∧ ¬ seqInvariant kdata0 := by
  refine ⟨kaggle_extract_kvid0, ?_⟩
  intro h
  have h99 := h.2 99 (by simp [tsList, kdata0])
  have hdur : kdata0.duration = 0 := rfl
  omega

/-- C10: the extraction loops of both scripts emit a frame record exactly
for the sampled video frames in which MediaPipe reported at least one hand,
built from the first detected hand — so every emitted record holds exactly
one hand's landmark list and one handedness label, and undetected frames
are silently absent. -/
theorem C10_detected_only :
    (∀ v d, extract_landmarks v = some d →
      d.frames = (List.enumFrom 0 v.frames).filterMap (sampleRecord (realTs v.fps)) ∧
      ∀ f ∈ d.frames, f.landmarks.length = 1 ∧ f.handedness.length = 1) ∧
    (∀ v d, extract_landmarks_from_video v = some d →
      d.frames = (List.enumFrom 0 v.frames).filterMap (sampleRecord (kaggleTs v.fps)) ∧
      ∀ f ∈ d.frames, f.landmarks.length = 1 ∧ f.handedness.length = 1) := by
  constructor
  · intro v d hd
    obtain rfl := extract_landmarks_ok hd
    exact ⟨extractLoop_eq _ _ _, fun f hf => extractLoop_mem_shape hf⟩
  · intro v d hd
    obtain rfl := kaggle_extract_ok hd
    exact ⟨extractLoop_eq _ _ _, fun f hf => extractLoop_mem_shape hf⟩

theorem C10_witness :
    wdataB.frames =
      (List.enumFrom 0 wvidB.frames).filterMap (sampleRecord (realTs wvidB.fps)) :=
  (C10_detected_only.1 wvidB wdataB extract_wvidB).1
